import Mathlib

/-!
# RecoTauProducer: the per-event tau construction pipeline

A shallow embedding of `RecoTauProducer::produce`
(`RecoTauTag/RecoTau/plugins/RecoTauProducer.cc`, lines 129-240) and the
properties of it that the specification states.

Conventions of the embedding.

* `double` quantities (`pt`, `eta`, `minJetPt_`, `maxJetAbsEta_`, the literal
  `1e-5`) are exact rationals.
* An `edm::Ptr` (a sub-constituent reference) is totally ordered by its
  reference key; the sorting and differencing functions are written over an
  arbitrary linear order and used at `CandidatePtr`.
* Builder and modifier plugins are `const` call operators of the plugin
  classes: they are total functions here, so they neither fail nor see the
  output collection.
* The counter `nTausBuilt` is an `unsigned int`: it is a natural number below
  `2 ^ 32`, and every update of it is taken modulo `2 ^ 32`.
* The plugin invocations of one event are recorded, in order, in a log.
-/

namespace RecoTau

/-! ## Data model -/

/-- Sub-constituent reference (`reco::CandidatePtr`), identified and ordered by its key. -/
abbrev CandidatePtr := Nat

/-- Charged hadron of a jet (`reco::PFRecoTauChargedHadron`), an identifier here. -/
abbrev PFRecoTauChargedHadron := Nat

/-- Neutral cluster of a jet (`reco::RecoTauPiZero`), an identifier here. -/
abbrev RecoTauPiZero := Nat

/-- Four-momentum (`LorentzVector`). -/
structure LorentzVector where
  px : ℚ
  py : ℚ
  pz : ℚ
  e : ℚ
deriving DecidableEq

/-- Jet-like object: the accessors `pt()`, `eta()`, `p4()` and `daughterPtrVector()`. -/
structure Jet where
  pt : ℚ
  eta : ℚ
  p4 : LorentzVector
  daughterPtrVector : List CandidatePtr
deriving DecidableEq

/-- Reference to a jet of the input view (`reco::JetBaseRef`): product id, key in the
view, and the jet it points to. -/
structure JetBaseRef where
  id : Nat
  key : Nat
  obj : Jet
deriving DecidableEq

/-- Modelled from the spec: the declaration of `reco::PFTau`
(`DataFormats/TauReco/interface/PFTau.h`), which the producer uses and which is not
part of the sources at hand. A candidate has a charge (first constructor argument), a
four-momentum, a back-reference to its jet that is null until set, an owned
sub-structure of charged and neutral pieces, and auxiliary fields. -/
structure PFTau where
  charge : Int
  p4 : LorentzVector
  jetRef : Option JetBaseRef
  signalTauChargedHadronCandidates : List PFRecoTauChargedHadron
  signalPiZeroCandidates : List RecoTauPiZero
  isolationCands : List CandidatePtr
  aux : List ℚ
deriving DecidableEq

namespace PFTau

/-- Constructor `PFTau(Charge q, const LorentzVector& p4)`: no content, null jet reference. -/
def ctor (q : Int) (p4 : LorentzVector) : PFTau :=
  { charge := q, p4 := p4, jetRef := none,
    signalTauChargedHadronCandidates := [], signalPiZeroCandidates := [],
    isolationCands := [], aux := [] }

/-- Setter `PFTau::setjetRef`. -/
def setjetRef (tau : PFTau) (ref : JetBaseRef) : PFTau :=
  { tau with jetRef := some ref }

/-- The sub-structure of a candidate is empty. -/
def hasNoContent (tau : PFTau) : Prop :=
  tau.signalTauChargedHadronCandidates = [] ∧ tau.signalPiZeroCandidates = [] ∧
    tau.isolationCands = []

end PFTau

/-- Value of `std::numeric_limits<int>::quiet_NaN()`: `int` has no NaN
(`has_quiet_NaN` is false), and the library returns `int()`. -/
def numeric_limits_int_quiet_NaN : Int := 0

/-- Builder plugin call operator:
`(jetRef, chargedHadrons, piZeros, uniqueRegionalCands) ↦ taus`. -/
abbrev Builder :=
  JetBaseRef → List PFRecoTauChargedHadron → List RecoTauPiZero → List CandidatePtr → List PFTau

/-- Modifier plugin call operator, mutating one tau in place. -/
abbrev Modifier := PFTau → PFTau

/-- Configuration held by the producer (its data members). -/
structure RecoTauProducer where
  minJetPt_ : ℚ
  maxJetAbsEta_ : ℚ
  builders_ : List Builder
  modifiers_ : List Modifier
  outputSelector_ : Option (PFTau → Bool)
  buildNullTaus_ : Bool

/-- Per-event inputs read by `produce`: the jet view, the jet-to-region association
(`none` is a null region reference), and the two per-jet association maps. -/
structure Event where
  jetViewId : Nat
  jetView : List Jet
  jetRegion : Nat → Option Jet
  chargedHadronAssoc : Nat → List PFRecoTauChargedHadron
  piZeroAssoc : Nat → List RecoTauPiZero

/-- Exception leaving `produce`: category `BadJetRegionRef`, with `jetRef.id()`. -/
inductive Exception where
  | BadJetRegionRef (id : Nat)
deriving DecidableEq

/-- Plugin invocation, as recorded in the log of an event. -/
inductive Call where
  | builderSetup (builder : Nat)
  | modifierSetup (modifier : Nat)
  | build (builder : Nat) (jetKey : Nat) (uniqueRegionalCands : List CandidatePtr)
  | apply (modifier : Nat) (position : Nat)
  | endEvent (modifier : Nat)
deriving DecidableEq

/-! ## Region differencing (lines 170-188) -/

section Differencing

variable {α : Type} [LinearOrder α]

/-- Sorting with `std::sort` under `operator<`. -/
def std_sort (l : List α) : List α :=
  l.insertionSort (· ≤ ·)

/-- Merge difference `std::set_difference(first1, last1, first2, last2, out)` of two sorted
ranges: the elements of the first range not matched in the second. -/
def set_difference : List α → List α → List α
  | [], _ => []
  | x :: xs, [] => x :: xs
  | x :: xs, y :: ys =>
    if x < y then x :: set_difference xs (y :: ys)
    else if y < x then set_difference (x :: xs) ys
    else set_difference xs ys
termination_by l₁ l₂ => l₁.length + l₂.length

/-- Lines 171-188: the regional candidates not in the jet, from the daughters of the jet
and of its region. -/
def uniqueRegionalCands (jetDaughters regionDaughters : List α) : List α :=
  let jetCands := std_sort jetDaughters
  let allRegionalCands := std_sort regionDaughters
  set_difference allRegionalCands jetCands

/-- The sorted multiset difference, as the specification words it. -/
def sortedMultisetDifference (regionDaughters jetDaughters : List α) : List α :=
  Multiset.sort (· ≤ ·) ((regionDaughters : Multiset α) - (jetDaughters : Multiset α))

end Differencing

/-! ## The producer (lines 129-240) -/

/-- Collection under construction and the log of plugin invocations so far. -/
structure ProdState where
  output : List PFTau
  log : List Call

/-- Working state of the builder loop of one jet: the producer state and `nTausBuilt`. -/
structure JetState where
  output : List PFTau
  nTausBuilt : Nat
  log : List Call

/-- Reference `jetView->refAt(i_j)`. -/
def refAt (ev : Event) (i_j : Nat) (jet : Jet) : JetBaseRef :=
  { id := ev.jetViewId, key := i_j, obj := jet }

/-- Lines 163-164: one of the two `continue` statements is taken for the jet. -/
def skipsJet (P : RecoTauProducer) (jet : Jet) : Bool :=
  if jet.pt - P.minJetPt_ < 1 / 100000 then true
  else if |jet.eta| - P.maxJetAbsEta_ > -(1 / 100000) then true
  else false

/-- Lines 221-222: the null tau of a jet. -/
def nullTau (jetRef : JetBaseRef) : PFTau :=
  (PFTau.ctor numeric_limits_int_quiet_NaN jetRef.obj.p4).setjetRef jetRef

/-- Lines 209-214: copy the taus that pass the selection; `nTausBuilt++` on the
`unsigned int` counter. -/
def selectLoop (sel : PFTau → Bool) : List PFTau → JetState → JetState
  | [], s => s
  | tau :: rest, s =>
    if sel tau then
      selectLoop sel rest
        { s with nTausBuilt := (s.nTausBuilt + 1) % 2 ^ 32, output := s.output ++ [tau] }
    else selectLoop sel rest s

/-- Lines 197-216: loop over the builders, from builder number `k` on;
`nTausBuilt += taus.size()` on the `unsigned int` counter. -/
def builderLoop (P : RecoTauProducer) (jetRef : JetBaseRef)
    (chargedHadrons : List PFRecoTauChargedHadron) (piZeros : List RecoTauPiZero)
    (uniqueCands : List CandidatePtr) : Nat → List Builder → JetState → JetState
  | _, [], s => s
  | k, builder :: rest, s =>
    let taus := (builder jetRef chargedHadrons piZeros uniqueCands).map
      (fun tau => tau.setjetRef jetRef)
    let s₁ : JetState := { s with log := s.log ++ [Call.build k jetRef.key uniqueCands] }
    let s₂ : JetState :=
      match P.outputSelector_ with
      | none =>
        { s₁ with output := s₁.output ++ taus,
                  nTausBuilt := (s₁.nTausBuilt + taus.length) % 2 ^ 32 }
      | some sel => selectLoop sel taus s₁
    builderLoop P jetRef chargedHadrons piZeros uniqueCands (k + 1) rest s₂

/-- Lines 170-216 for a jet with region `region`: differencing, then the builder loop
started with `nTausBuilt = 0`. -/
def buildTaus (P : RecoTauProducer) (ev : Event) (jetRef : JetBaseRef) (region : Jet)
    (st : ProdState) : JetState :=
  builderLoop P jetRef (ev.chargedHadronAssoc jetRef.key) (ev.piZeroAssoc jetRef.key)
    (uniqueRegionalCands jetRef.obj.daughterPtrVector region.daughterPtrVector)
    0 P.builders_ { output := st.output, nTausBuilt := 0, log := st.log }

/-- Lines 220-224: build a null tau if no tau was built and null taus are wanted. -/
def addNullTau (P : RecoTauProducer) (jetRef : JetBaseRef) (s : JetState) : ProdState :=
  if s.nTausBuilt = 0 ∧ P.buildNullTaus_ = true then
    { output := s.output ++ [nullTau jetRef], log := s.log }
  else { output := s.output, log := s.log }

/-- Body of the jet loop (lines 161-224) for the jet at index `i_j`. -/
def processJet (P : RecoTauProducer) (ev : Event) (i_j : Nat) (jet : Jet) (st : ProdState) :
    Except Exception ProdState :=
  let jetRef := refAt ev i_j jet
  if skipsJet P jet then .ok st
  else
    match ev.jetRegion jetRef.key with
    | none => .error (Exception.BadJetRegionRef jetRef.id)
    | some region => .ok (addNullTau P jetRef (buildTaus P ev jetRef region st))

/-- What the body of the jet loop appends to the collection for the jet at index `i_j`:
the collection it leaves when run on the empty one. -/
def jetContribution (P : RecoTauProducer) (ev : Event) (i_j : Nat) (jet : Jet) : List PFTau :=
  match processJet P ev i_j jet { output := [], log := [] } with
  | .ok st => st.output
  | .error _ => []

/-- Jet loop (lines 160-225) from index `i_j` on; an exception stops it with the state
reached so far. -/
def jetLoop (P : RecoTauProducer) (ev : Event) : Nat → List Jet → ProdState →
    ProdState × Option Exception
  | _, [], st => (st, none)
  | i_j, jet :: rest, st =>
    match processJet P ev i_j jet st with
    | .error e => (st, some e)
    | .ok st₁ => jetLoop P ev (i_j + 1) rest st₁

/-- Lines 148-150: `setup` of every builder. -/
def setupBuilders : Nat → List Builder → List Call → List Call
  | _, [], log => log
  | k, _ :: rest, log => setupBuilders (k + 1) rest (log ++ [Call.builderSetup k])

/-- Lines 151-153: `setup` of every modifier. -/
def setupModifiers : Nat → List Modifier → List Call → List Call
  | _, [], log => log
  | m, _ :: rest, log => setupModifiers (m + 1) rest (log ++ [Call.modifierSetup m])

/-- Lines 230-232: every modifier, from number `m` on, applied to the tau at `position`. -/
def applyModifiers (position : Nat) : Nat → List Modifier → PFTau × List Call →
    PFTau × List Call
  | _, [], s => s
  | m, modifier :: rest, s =>
    applyModifiers position (m + 1) rest (modifier s.1, s.2 ++ [Call.apply m position])

/-- Lines 228-233: the iterator walks the output collection from `position` on. -/
def modifierLoop (modifiers : List Modifier) : Nat → List PFTau → List Call →
    List PFTau × List Call
  | _, [], log => ([], log)
  | position, tau :: rest, log =>
    let r := applyModifiers position 0 modifiers (tau, log)
    let r' := modifierLoop modifiers (position + 1) rest r.2
    (r.1 :: r'.1, r'.2)

/-- Lines 235-237: `endEvent` of every modifier. -/
def endEventLoop : Nat → List Modifier → List Call → List Call
  | _, [], log => log
  | m, _ :: rest, log => endEventLoop (m + 1) rest (log ++ [Call.endEvent m])

/-- Lines 147-225: the setup calls and the jet loop, giving the output collection as it is
before the modifiers run. -/
def assemble (P : RecoTauProducer) (ev : Event) : ProdState × Option Exception :=
  let log₁ := setupBuilders 0 P.builders_ []
  let log₂ := setupModifiers 0 P.modifiers_ log₁
  jetLoop P ev 0 ev.jetView { output := [], log := log₂ }

/-- What an event leaves behind: the log, and the collection given to `evt.put` or the
exception that left `produce`. -/
structure Outcome where
  log : List Call
  put : Except Exception (List PFTau)

/-- The method `RecoTauProducer::produce`. -/
def produce (P : RecoTauProducer) (ev : Event) : Outcome :=
  match assemble P ev with
  | (st, some e) => { log := st.log, put := .error e }
  | (st, none) =>
    let r := modifierLoop P.modifiers_ 0 st.output st.log
    { log := endEventLoop 0 P.modifiers_ r.2, put := .ok r.1 }

/-! ## Specification-side definitions -/

/-- The selection in force: the configured predicate, or none. -/
def passesSelection (P : RecoTauProducer) (tau : PFTau) : Bool :=
  match P.outputSelector_ with
  | none => true
  | some sel => sel tau

/-- The candidates of a jet that survive: over the builders in list order, what the builder
returned, in its order, with the jet reference set, restricted to the selection. -/
def survivingCandidates (P : RecoTauProducer) (ev : Event) (jetRef : JetBaseRef)
    (region : Jet) : List PFTau :=
  P.builders_.flatMap fun builder =>
    ((builder jetRef (ev.chargedHadronAssoc jetRef.key) (ev.piZeroAssoc jetRef.key)
        (uniqueRegionalCands jetRef.obj.daughterPtrVector region.daughterPtrVector)).map
      (fun tau => tau.setjetRef jetRef)).filter (passesSelection P)

/-- The contribution of the jet at index `i_j` to the output collection, as the
specification words it. -/
def seedContribution (P : RecoTauProducer) (ev : Event) (i_j : Nat) (jet : Jet) : List PFTau :=
  if skipsJet P jet then []
  else
    match ev.jetRegion i_j with
    | none => []
    | some region =>
      let real := survivingCandidates P ev (refAt ev i_j jet) region
      if real = [] ∧ P.buildNullTaus_ = true then [nullTau (refAt ev i_j jet)] else real

/-- The chain of modifiers applied to one candidate, in list order. -/
def modifierChain (modifiers : List Modifier) (tau : PFTau) : PFTau :=
  modifiers.foldl (fun t modifier => modifier t) tau

/-- The `apply` calls of `n` candidates and `M` modifiers, candidate by candidate. -/
def applyCalls (n M : Nat) : List Call :=
  (List.range n).flatMap fun c => (List.range M).map fun m => Call.apply m c

/-- The `build` calls of one jet: one per builder, in list order. -/
def buildCalls (P : RecoTauProducer) (jetRef : JetBaseRef) (region : Jet) : List Call :=
  (List.range P.builders_.length).map fun k =>
    Call.build k jetRef.key
      (uniqueRegionalCands jetRef.obj.daughterPtrVector region.daughterPtrVector)

/-- The plugin calls made while the jet at index `i_j` is processed. -/
def seedCalls (P : RecoTauProducer) (ev : Event) (i_j : Nat) (jet : Jet) : List Call :=
  if skipsJet P jet then []
  else
    match ev.jetRegion i_j with
    | none => []
    | some region => buildCalls P (refAt ev i_j jet) region

/-- The jet at index `ij.1` passes the pre-filter and has no resolvable region. -/
def missingRegion (P : RecoTauProducer) (ev : Event) (ij : Nat × Jet) : Bool :=
  !skipsJet P ij.2 && (ev.jetRegion ij.1).isNone

/-- The jets, with their indices, that come before the first one with a missing region. -/
def processedJets (P : RecoTauProducer) (ev : Event) (i_j : Nat) (jets : List Jet) :
    List (Nat × Jet) :=
  (jets.enumFrom i_j).takeWhile fun ij => !missingRegion P ev ij

/-- The `setup` calls of an event: every builder, then every modifier. -/
def setupCalls (P : RecoTauProducer) : List Call :=
  (List.range P.builders_.length).map Call.builderSetup ++
    (List.range P.modifiers_.length).map Call.modifierSetup

/-- The `endEvent` calls of an event. -/
def endEventCalls (P : RecoTauProducer) : List Call :=
  (List.range P.modifiers_.length).map Call.endEvent

/-! ## Scenarios -/

/-- Scenario seed: `pt = 20`, `eta = 1.0`, three daughters given out of order. -/
def scenarioJet : Jet :=
  { pt := 20, eta := 1, p4 := { px := 20, py := 0, pz := 47 / 2, e := 31 },
    daughterPtrVector := [3, 1, 2] }

/-- Seed below the momentum threshold: `pt = 10`. -/
def softJet : Jet := { scenarioJet with pt := 10 }

/-- Seed just below the nominal momentum minimum of 14: `pt = 14 - 5e-6`, `eta = 0`. -/
def nearThresholdJet : Jet := { scenarioJet with pt := 14 - 1 / 200000, eta := 0 }

/-- Event with the scenario seed alone; every region has the daughters of the seed. -/
def scenarioEvent : Event :=
  { jetViewId := 7, jetView := [scenarioJet], jetRegion := fun _ => some scenarioJet,
    chargedHadronAssoc := fun _ => [11], piZeroAssoc := fun _ => [21] }

/-- Event with the soft seed alone. -/
def softEvent : Event := { scenarioEvent with jetView := [softJet] }

/-- Event with the soft seed, then the scenario seed, and no resolvable region at all. -/
def unresolvedEvent : Event :=
  { scenarioEvent with jetView := [softJet, scenarioJet], jetRegion := fun _ => none }

/-- First candidate of the scenario builder. -/
def tauA : PFTau :=
  { PFTau.ctor 1 { px := 10, py := 0, pz := 5, e := 12 } with
    signalTauChargedHadronCandidates := [11] }

/-- Second candidate of the scenario builder, a neutral one. -/
def tauB : PFTau :=
  { PFTau.ctor 0 { px := 8, py := 1, pz := 4, e := 10 } with
    signalTauChargedHadronCandidates := [11], signalPiZeroCandidates := [21] }

/-- Builder returning the two scenario candidates, in this order. -/
def twoTauBuilder : Builder := fun _ _ _ _ => [tauA, tauB]

/-- Builder returning no candidate. -/
def emptyBuilder : Builder := fun _ _ _ _ => []

/-- Modifier appending the mark `m` to the auxiliary fields. -/
def markModifier (m : ℚ) : Modifier := fun tau => { tau with aux := tau.aux ++ [m] }

/-- Scenario configuration: thresholds 14 and 2.5, one builder, no selection, no null tau. -/
def scenarioProducer : RecoTauProducer :=
  { minJetPt_ := 14, maxJetAbsEta_ := 5 / 2, builders_ := [twoTauBuilder], modifiers_ := [],
    outputSelector_ := none, buildNullTaus_ := false }

/-- The scenario configuration with null taus wanted. -/
def nullTauProducer : RecoTauProducer := { scenarioProducer with buildNullTaus_ := true }

/-- The scenario configuration with a builder that returns nothing, and null taus wanted. -/
def emptyBuilderProducer : RecoTauProducer :=
  { scenarioProducer with builders_ := [emptyBuilder], buildNullTaus_ := true }

/-- The scenario configuration with a selection rejecting everything, and null taus wanted. -/
def rejectAllProducer : RecoTauProducer :=
  { scenarioProducer with outputSelector_ := some fun _ => false, buildNullTaus_ := true }

/-- The scenario configuration with two marking modifiers. -/
def twoModifierProducer : RecoTauProducer :=
  { scenarioProducer with modifiers_ := [markModifier 1, markModifier 2] }

/-! ## Region differencing: lemmas -/

section DifferencingLemmas

variable {α : Type} [LinearOrder α]

theorem set_difference_sublist (l₁ l₂ : List α) : (set_difference l₁ l₂).Sublist l₁ := by
  induction l₁, l₂ using set_difference.induct with
  | case1 l₂ => simp [set_difference]
  | case2 x xs => simp [set_difference]
  | case3 x xs y ys h ih =>
    rw [set_difference, if_pos h]
    exact ih.cons₂ x
  | case4 x xs y ys h₁ h₂ ih =>
    rw [set_difference, if_neg h₁, if_pos h₂]
    exact ih
  | case5 x xs y ys h₁ h₂ ih =>
    rw [set_difference, if_neg h₁, if_neg h₂]
    exact ih.cons x

theorem count_eq_zero_of_lt_sorted {a y : α} {ys : List α} (h : a < y)
    (hs : (y :: ys).Sorted (· ≤ ·)) : (y :: ys).count a = 0 := by
  rw [List.count_eq_zero]
  intro hmem
  rcases List.mem_cons.1 hmem with rfl | hmem
  · exact lt_irrefl _ h
  · exact absurd (List.rel_of_sorted_cons hs a hmem) (not_le.2 h)

theorem count_set_difference (a : α) (l₁ l₂ : List α) (h₁ : l₁.Sorted (· ≤ ·))
    (h₂ : l₂.Sorted (· ≤ ·)) :
    (set_difference l₁ l₂).count a = l₁.count a - l₂.count a := by
  induction l₁, l₂ using set_difference.induct with
  | case1 l₂ => simp [set_difference]
  | case2 x xs => simp [set_difference]
  | case3 x xs y ys h ih =>
    have ih' := ih h₁.of_cons h₂
    rw [set_difference, if_pos h]
    by_cases hxa : x = a
    · subst hxa
      have hz := count_eq_zero_of_lt_sorted h h₂
      rw [List.count_cons_self, List.count_cons_self, ih', hz]
      omega
    · rw [List.count_cons_of_ne (Ne.symm hxa), List.count_cons_of_ne (Ne.symm hxa), ih']
  | case4 x xs y ys h h' ih =>
    have ih' := ih h₁ h₂.of_cons
    rw [set_difference, if_neg h, if_pos h', ih']
    by_cases hya : y = a
    · subst hya
      have hz := count_eq_zero_of_lt_sorted h' h₁
      rw [hz]
      omega
    · rw [List.count_cons_of_ne (Ne.symm hya)]
  | case5 x xs y ys h h' ih =>
    have ih' := ih h₁.of_cons h₂.of_cons
    have hxy : x = y := le_antisymm (not_lt.1 h') (not_lt.1 h)
    subst hxy
    rw [set_difference, if_neg h, if_neg h', ih']
    by_cases hxa : x = a
    · subst hxa
      rw [List.count_cons_self, List.count_cons_self]
      omega
    · rw [List.count_cons_of_ne (Ne.symm hxa), List.count_cons_of_ne (Ne.symm hxa)]

theorem sorted_std_sort (l : List α) : (std_sort l).Sorted (· ≤ ·) :=
  List.sorted_insertionSort (· ≤ ·) l

theorem count_std_sort (a : α) (l : List α) : (std_sort l).count a = l.count a :=
  (List.perm_insertionSort (· ≤ ·) l).count_eq a

theorem sorted_uniqueRegionalCands (S R : List α) :
    (uniqueRegionalCands S R).Sorted (· ≤ ·) :=
  (sorted_std_sort R).sublist (set_difference_sublist _ _)

theorem count_uniqueRegionalCands (a : α) (S R : List α) :
    (uniqueRegionalCands S R).count a = R.count a - S.count a := by
  unfold uniqueRegionalCands
  rw [count_set_difference a _ _ (sorted_std_sort R) (sorted_std_sort S), count_std_sort,
    count_std_sort]

theorem eq_of_sorted_of_count {l₁ l₂ : List α} (h₁ : l₁.Sorted (· ≤ ·))
    (h₂ : l₂.Sorted (· ≤ ·)) (h : ∀ a, l₁.count a = l₂.count a) : l₁ = l₂ :=
  List.eq_of_perm_of_sorted (List.perm_iff_count.2 h) h₁ h₂

theorem uniqueRegionalCands_eq_sortedMultisetDifference (S R : List α) :
    uniqueRegionalCands S R = sortedMultisetDifference R S := by
  apply eq_of_sorted_of_count (sorted_uniqueRegionalCands S R)
  · exact Multiset.sort_sorted _ _
  · intro a
    have h : ((sortedMultisetDifference R S : List α) : Multiset α).count a
        = R.count a - S.count a := by
      unfold sortedMultisetDifference
      rw [Multiset.sort_eq, Multiset.count_sub, Multiset.coe_count, Multiset.coe_count]
    rw [count_uniqueRegionalCands, ← h, Multiset.coe_count]

theorem uniqueRegionalCands_eq_nil_iff (S R : List α) :
    uniqueRegionalCands S R = [] ↔ ∀ a, R.count a ≤ S.count a := by
  constructor
  · intro h a
    have := count_uniqueRegionalCands a S R
    rw [h] at this
    simp at this
    omega
  · intro h
    apply eq_of_sorted_of_count (sorted_uniqueRegionalCands S R) List.sorted_nil
    intro a
    rw [count_uniqueRegionalCands, List.count_nil]
    exact Nat.sub_eq_zero_of_le (h a)

end DifferencingLemmas

/-! ## The producer: lemmas on the loops -/

theorem selectLoop_eq (sel : PFTau → Bool) (taus : List PFTau) (s : JetState)
    (hlt : s.nTausBuilt < 2 ^ 32) :
    selectLoop sel taus s =
      { output := s.output ++ taus.filter sel,
        nTausBuilt := (s.nTausBuilt + (taus.filter sel).length) % 2 ^ 32,
        log := s.log } := by
  induction taus generalizing s with
  | nil =>
    simp only [selectLoop, List.filter_nil, List.append_nil, List.length_nil, Nat.add_zero,
      Nat.mod_eq_of_lt hlt]
  | cons tau rest ih =>
    by_cases h : sel tau = true
    · have hlt' : (s.nTausBuilt + 1) % 2 ^ 32 < 2 ^ 32 := Nat.mod_lt _ (by norm_num)
      rw [selectLoop, if_pos h,
        ih { s with nTausBuilt := (s.nTausBuilt + 1) % 2 ^ 32, output := s.output ++ [tau] } hlt',
        List.filter_cons_of_pos h]
      simp only [List.append_assoc, List.singleton_append, List.length_cons, Nat.mod_add_mod]
      rw [Nat.add_assoc, Nat.add_comm 1]
    · rw [selectLoop, if_neg h, ih s hlt, List.filter_cons_of_neg h]

theorem builderLoop_eq (P : RecoTauProducer) (jetRef : JetBaseRef)
    (ch : List PFRecoTauChargedHadron) (pz : List RecoTauPiZero) (u : List CandidatePtr)
    (k : Nat) (builders : List Builder) (s : JetState) (hlt : s.nTausBuilt < 2 ^ 32) :
    builderLoop P jetRef ch pz u k builders s =
      { output := s.output ++ builders.flatMap fun builder =>
          ((builder jetRef ch pz u).map fun tau => tau.setjetRef jetRef).filter
            (passesSelection P),
        nTausBuilt := (s.nTausBuilt + (builders.flatMap fun builder =>
          ((builder jetRef ch pz u).map fun tau => tau.setjetRef jetRef).filter
            (passesSelection P)).length) % 2 ^ 32,
        log := s.log ++ (List.range' k builders.length).map fun j =>
          Call.build j jetRef.key u } := by
  induction builders generalizing k s with
  | nil =>
    simp only [builderLoop, List.flatMap_nil, List.append_nil, List.length_nil, Nat.add_zero,
      Nat.mod_eq_of_lt hlt, List.range'_zero, List.map_nil]
  | cons builder rest ih =>
    rw [builderLoop]
    cases hsel : P.outputSelector_ with
    | none =>
      have hp : passesSelection P = fun _ => true := by
        funext t; simp [passesSelection, hsel]
      simp only
      rw [ih (k + 1) _ (Nat.mod_lt _ (by norm_num))]
      simp only [hp, List.filter_true, List.flatMap_cons, List.append_assoc, List.length_append,
        Nat.mod_add_mod, List.length_cons, List.range'_succ, List.map_cons,
        List.singleton_append, Nat.add_assoc]
    | some sel =>
      have hp : passesSelection P = sel := by
        funext t; simp [passesSelection, hsel]
      simp only
      rw [selectLoop_eq sel _ ⟨s.output, s.nTausBuilt, s.log ++ [Call.build k jetRef.key u]⟩
        hlt, ih (k + 1) _ (Nat.mod_lt _ (by norm_num))]
      simp only [hp, List.flatMap_cons, List.append_assoc, List.length_append,
        Nat.mod_add_mod, List.length_cons, List.range'_succ, List.map_cons,
        List.singleton_append, Nat.add_assoc]

theorem buildTaus_eq (P : RecoTauProducer) (ev : Event) (jetRef : JetBaseRef) (region : Jet)
    (st : ProdState) :
    buildTaus P ev jetRef region st =
      { output := st.output ++ survivingCandidates P ev jetRef region,
        nTausBuilt := (survivingCandidates P ev jetRef region).length % 2 ^ 32,
        log := st.log ++ buildCalls P jetRef region } := by
  rw [buildTaus, builderLoop_eq _ _ _ _ _ _ _ _ (by norm_num)]
  simp only [survivingCandidates, buildCalls, List.range_eq_range', Nat.zero_add]

theorem addNullTau_buildTaus (P : RecoTauProducer) (ev : Event) (jetRef : JetBaseRef)
    (region : Jet) (st : ProdState) :
    addNullTau P jetRef (buildTaus P ev jetRef region st) =
      { output := st.output ++ survivingCandidates P ev jetRef region ++
          (if (survivingCandidates P ev jetRef region).length % 2 ^ 32 = 0 ∧
              P.buildNullTaus_ = true
            then [nullTau jetRef] else []),
        log := st.log ++ buildCalls P jetRef region } := by
  rw [buildTaus_eq]
  by_cases h : (survivingCandidates P ev jetRef region).length % 2 ^ 32 = 0 ∧
      P.buildNullTaus_ = true
  · simp only [addNullTau, h, and_self, if_true]
  · simp only [addNullTau, h, if_false, List.append_nil]

theorem processJet_skip (P : RecoTauProducer) (ev : Event) (i_j : Nat) (jet : Jet)
    (st : ProdState) (h : skipsJet P jet = true) : processJet P ev i_j jet st = .ok st := by
  simp [processJet, h]

theorem processJet_missing (P : RecoTauProducer) (ev : Event) (i_j : Nat) (jet : Jet)
    (st : ProdState) (h : skipsJet P jet = false) (hr : ev.jetRegion i_j = none) :
    processJet P ev i_j jet st = .error (Exception.BadJetRegionRef ev.jetViewId) := by
  simp [processJet, h, refAt, hr]

theorem processJet_build (P : RecoTauProducer) (ev : Event) (i_j : Nat) (jet region : Jet)
    (st : ProdState) (h : skipsJet P jet = false) (hr : ev.jetRegion i_j = some region) :
    processJet P ev i_j jet st =
      .ok (addNullTau P (refAt ev i_j jet) (buildTaus P ev (refAt ev i_j jet) region st)) := by
  simp [processJet, h, refAt, hr]

theorem jetContribution_of_skip (P : RecoTauProducer) (ev : Event) (i_j : Nat) (jet : Jet)
    (hs : skipsJet P jet = true) : jetContribution P ev i_j jet = [] := by
  simp only [jetContribution, processJet_skip P ev i_j jet _ hs]

theorem jetContribution_of_region (P : RecoTauProducer) (ev : Event) (i_j : Nat)
    (jet region : Jet) (hs : skipsJet P jet = false) (hr : ev.jetRegion i_j = some region) :
    jetContribution P ev i_j jet =
      survivingCandidates P ev (refAt ev i_j jet) region ++
        (if (survivingCandidates P ev (refAt ev i_j jet) region).length % 2 ^ 32 = 0 ∧
            P.buildNullTaus_ = true
          then [nullTau (refAt ev i_j jet)] else []) := by
  simp only [jetContribution, processJet_build P ev i_j jet region _ hs hr,
    addNullTau_buildTaus, List.nil_append]

theorem jetContribution_of_no_survivor (P : RecoTauProducer) (ev : Event) (i_j : Nat)
    (jet region : Jet) (hs : skipsJet P jet = false) (hr : ev.jetRegion i_j = some region)
    (hsurv : survivingCandidates P ev (refAt ev i_j jet) region = [])
    (hnull : P.buildNullTaus_ = true) :
    jetContribution P ev i_j jet = [nullTau (refAt ev i_j jet)] := by
  rw [jetContribution_of_region P ev i_j jet region hs hr, hsurv]
  simp [hnull]

theorem processJet_ok (P : RecoTauProducer) (ev : Event) (i_j : Nat) (jet : Jet)
    (st : ProdState) (h : missingRegion P ev (i_j, jet) = false) :
    processJet P ev i_j jet st =
      .ok { output := st.output ++ jetContribution P ev i_j jet,
            log := st.log ++ seedCalls P ev i_j jet } := by
  cases hs : skipsJet P jet with
  | true =>
    simp [processJet_skip P ev i_j jet st hs, jetContribution_of_skip P ev i_j jet hs,
      seedCalls, hs]
  | false =>
    cases hr : ev.jetRegion i_j with
    | none => simp [missingRegion, hs, hr] at h
    | some region =>
      rw [processJet_build P ev i_j jet region st hs hr, addNullTau_buildTaus,
        jetContribution_of_region P ev i_j jet region hs hr]
      simp [seedCalls, hs, hr]

theorem processJet_error (P : RecoTauProducer) (ev : Event) (i_j : Nat) (jet : Jet)
    (st : ProdState) (h : missingRegion P ev (i_j, jet) = true) :
    processJet P ev i_j jet st = .error (Exception.BadJetRegionRef ev.jetViewId) := by
  simp only [missingRegion, Bool.and_eq_true, Bool.not_eq_true', Option.isNone_iff_eq_none] at h
  exact processJet_missing P ev i_j jet st h.1 h.2

theorem jetLoop_eq (P : RecoTauProducer) (ev : Event) (i_j : Nat) (jets : List Jet)
    (st : ProdState) :
    jetLoop P ev i_j jets st =
      ({ output := st.output ++
            (processedJets P ev i_j jets).flatMap fun ij => jetContribution P ev ij.1 ij.2,
         log := st.log ++
            (processedJets P ev i_j jets).flatMap fun ij => seedCalls P ev ij.1 ij.2 },
       if (jets.enumFrom i_j).all (fun ij => !missingRegion P ev ij) then none
       else some (Exception.BadJetRegionRef ev.jetViewId)) := by
  induction jets generalizing i_j st with
  | nil => simp [jetLoop, processedJets]
  | cons jet rest ih =>
    cases hm : missingRegion P ev (i_j, jet) with
    | true =>
      simp [jetLoop, processJet_error P ev i_j jet st hm, processedJets, List.enumFrom_cons,
        List.takeWhile_cons, hm]
    | false =>
      have ih' := ih (i_j + 1) { output := st.output ++ jetContribution P ev i_j jet,
                                 log := st.log ++ seedCalls P ev i_j jet }
      simp only [processedJets] at ih'
      simp [jetLoop, processJet_ok P ev i_j jet st hm, processedJets, List.enumFrom_cons,
        List.takeWhile_cons, hm, ih', List.append_assoc]
      rw [hm]
      rfl

theorem setupBuilders_eq (k : Nat) (builders : List Builder) (log : List Call) :
    setupBuilders k builders log
      = log ++ (List.range' k builders.length).map Call.builderSetup := by
  induction builders generalizing k log with
  | nil => simp [setupBuilders]
  | cons b rest ih => simp [setupBuilders, ih, List.range'_succ]

theorem setupModifiers_eq (m : Nat) (modifiers : List Modifier) (log : List Call) :
    setupModifiers m modifiers log
      = log ++ (List.range' m modifiers.length).map Call.modifierSetup := by
  induction modifiers generalizing m log with
  | nil => simp [setupModifiers]
  | cons b rest ih => simp [setupModifiers, ih, List.range'_succ]

theorem endEventLoop_eq (m : Nat) (modifiers : List Modifier) (log : List Call) :
    endEventLoop m modifiers log
      = log ++ (List.range' m modifiers.length).map Call.endEvent := by
  induction modifiers generalizing m log with
  | nil => simp [endEventLoop]
  | cons b rest ih => simp [endEventLoop, ih, List.range'_succ]

theorem applyModifiers_eq (position m : Nat) (modifiers : List Modifier) (tau : PFTau)
    (log : List Call) :
    applyModifiers position m modifiers (tau, log) =
      (modifierChain modifiers tau,
       log ++ (List.range' m modifiers.length).map fun j => Call.apply j position) := by
  induction modifiers generalizing m tau log with
  | nil => simp [applyModifiers, modifierChain]
  | cons b rest ih =>
    simp [applyModifiers, ih, List.range'_succ, modifierChain]

theorem modifierLoop_eq (modifiers : List Modifier) (position : Nat) (taus : List PFTau)
    (log : List Call) :
    modifierLoop modifiers position taus log =
      (taus.map (modifierChain modifiers),
       log ++ (List.range' position taus.length).flatMap fun c =>
         (List.range modifiers.length).map fun m => Call.apply m c) := by
  induction taus generalizing position log with
  | nil => simp [modifierLoop]
  | cons tau rest ih =>
    simp [modifierLoop, ih, applyModifiers_eq, List.range'_succ, List.range_eq_range']

theorem assemble_eq (P : RecoTauProducer) (ev : Event) :
    assemble P ev =
      ({ output := (processedJets P ev 0 ev.jetView).flatMap fun ij =>
            jetContribution P ev ij.1 ij.2,
         log := setupCalls P ++
            (processedJets P ev 0 ev.jetView).flatMap fun ij => seedCalls P ev ij.1 ij.2 },
       if ev.jetView.enum.all (fun ij => !missingRegion P ev ij) then none
       else some (Exception.BadJetRegionRef ev.jetViewId)) := by
  simp [assemble, jetLoop_eq, setupBuilders_eq, setupModifiers_eq, setupCalls,
    List.range_eq_range', List.enum]

/-! ## The producer: lemmas on one event -/

theorem skipsJet_eq_true_iff (P : RecoTauProducer) (jet : Jet) :
    skipsJet P jet = true ↔
      (jet.pt - P.minJetPt_ < 1 / 100000 ∨ |jet.eta| - P.maxJetAbsEta_ > -(1 / 100000)) := by
  unfold skipsJet
  by_cases h₁ : jet.pt - P.minJetPt_ < 1 / 100000
  · simp [h₁]
  · by_cases h₂ : |jet.eta| - P.maxJetAbsEta_ > -(1 / 100000)
    · simp [h₁, h₂]
    · simp [h₁, h₂]

theorem no_missing_iff (P : RecoTauProducer) (ev : Event) :
    (ev.jetView.enum.all fun ij => !missingRegion P ev ij) = true ↔
      ∀ i jet, ev.jetView[i]? = some jet → skipsJet P jet = false →
        (ev.jetRegion i).isSome = true := by
  rw [List.all_eq_true]
  constructor
  · intro h i jet hi hs
    have := h (i, jet) (List.mk_mem_enum_iff_getElem?.2 hi)
    cases hr : ev.jetRegion i with
    | none => simp [missingRegion, hs, hr] at this
    | some r => rfl
  · intro h ij hij
    have hi := List.mem_enum_iff_getElem?.1 hij
    cases hs : skipsJet P ij.2 with
    | true => simp [missingRegion, hs]
    | false =>
      have := h ij.1 ij.2 hi hs
      cases hr : ev.jetRegion ij.1 with
      | none => simp [hr] at this
      | some r => simp [missingRegion, hs, hr]

theorem some_missing_iff (P : RecoTauProducer) (ev : Event) :
    (ev.jetView.enum.all fun ij => !missingRegion P ev ij) = false ↔
      ∃ i jet, ev.jetView[i]? = some jet ∧ skipsJet P jet = false ∧ ev.jetRegion i = none := by
  rw [← Bool.not_eq_true, no_missing_iff]
  constructor
  · intro h
    by_contra hne
    apply h
    intro i jet hi hs
    cases hr : ev.jetRegion i with
    | none => exact absurd ⟨i, jet, hi, hs, hr⟩ hne
    | some r => rfl
  · rintro ⟨i, jet, hi, hs, hr⟩ h
    have := h i jet hi hs
    simp [hr] at this

theorem processedJets_of_resolved (P : RecoTauProducer) (ev : Event)
    (h : ∀ i jet, ev.jetView[i]? = some jet → skipsJet P jet = false →
      (ev.jetRegion i).isSome = true) :
    processedJets P ev 0 ev.jetView = ev.jetView.enum := by
  have hall := (no_missing_iff P ev).2 h
  rw [List.all_eq_true] at hall
  exact List.takeWhile_eq_self_iff.2 hall

theorem mem_processedJets {P : RecoTauProducer} {ev : Event} {ij : Nat × Jet}
    (h : ij ∈ processedJets P ev 0 ev.jetView) : ev.jetView[ij.1]? = some ij.2 :=
  List.mem_enum_iff_getElem?.1 ((List.takeWhile_sublist _).subset h)

theorem mem_nullTau_jetRef (jetRef : JetBaseRef) : (nullTau jetRef).jetRef = some jetRef := rfl

theorem mem_survivingCandidates {P : RecoTauProducer} {ev : Event} {jetRef : JetBaseRef}
    {region : Jet} {tau : PFTau} (h : tau ∈ survivingCandidates P ev jetRef region) :
    tau.jetRef = some jetRef ∧ passesSelection P tau = true := by
  simp only [survivingCandidates, List.mem_flatMap, List.mem_filter, List.mem_map] at h
  obtain ⟨builder, _, ⟨t, _, rfl⟩, hsel⟩ := h
  exact ⟨rfl, hsel⟩

theorem mem_seedContribution {P : RecoTauProducer} {ev : Event} {i_j : Nat} {jet : Jet}
    {tau : PFTau} (h : tau ∈ seedContribution P ev i_j jet) :
    skipsJet P jet = false ∧ tau.jetRef = some (refAt ev i_j jet) := by
  unfold seedContribution at h
  cases hs : skipsJet P jet with
  | true => simp [hs] at h
  | false =>
    refine ⟨rfl, ?_⟩
    cases hr : ev.jetRegion i_j with
    | none => simp [hs, hr] at h
    | some region =>
      simp only [hs, hr, Bool.false_eq_true, if_false] at h
      by_cases hn : survivingCandidates P ev (refAt ev i_j jet) region = [] ∧
          P.buildNullTaus_ = true
      · rw [if_pos hn, List.mem_singleton] at h
        rw [h]
        rfl
      · rw [if_neg hn] at h
        exact (mem_survivingCandidates h).1

theorem mem_jetContribution {P : RecoTauProducer} {ev : Event} {i_j : Nat} {jet : Jet}
    {tau : PFTau} (h : tau ∈ jetContribution P ev i_j jet) :
    skipsJet P jet = false ∧ tau.jetRef = some (refAt ev i_j jet) := by
  cases hs : skipsJet P jet with
  | true =>
    rw [jetContribution_of_skip P ev i_j jet hs] at h
    exact absurd h (List.not_mem_nil _)
  | false =>
    refine ⟨rfl, ?_⟩
    cases hr : ev.jetRegion i_j with
    | none =>
      simp only [jetContribution, processJet_missing P ev i_j jet _ hs hr] at h
      exact absurd h (List.not_mem_nil _)
    | some region =>
      rw [jetContribution_of_region P ev i_j jet region hs hr, List.mem_append] at h
      rcases h with h | h
      · exact (mem_survivingCandidates h).1
      · split at h
        · rw [List.mem_singleton] at h
          rw [h]
          rfl
        · exact absurd h (List.not_mem_nil _)

theorem mem_seedCalls {P : RecoTauProducer} {ev : Event} {i_j : Nat} {jet : Jet} {c : Call}
    (h : c ∈ seedCalls P ev i_j jet) :
    skipsJet P jet = false ∧ ∃ b u, c = Call.build b i_j u := by
  unfold seedCalls at h
  cases hs : skipsJet P jet with
  | true => simp [hs] at h
  | false =>
    refine ⟨rfl, ?_⟩
    cases hr : ev.jetRegion i_j with
    | none => simp [hs, hr] at h
    | some region =>
      simp only [hs, hr, Bool.false_eq_true, if_false, buildCalls, List.mem_map, refAt] at h
      obtain ⟨b, _, rfl⟩ := h
      exact ⟨b, _, rfl⟩

theorem length_applyCalls (n M : Nat) : (applyCalls n M).length = n * M := by
  induction n with
  | zero => simp [applyCalls]
  | succ n ih =>
    have : applyCalls (n + 1) M
        = applyCalls n M ++ (List.range M).map fun m => Call.apply m n := by
      simp [applyCalls, List.range_succ]
    rw [this, List.length_append, ih, List.length_map, List.length_range, Nat.succ_mul]

theorem getElem?_applyCalls (n M c m : Nat) (hc : c < n) (hm : m < M) :
    (applyCalls n M)[c * M + m]? = some (Call.apply m c) := by
  induction n with
  | zero => omega
  | succ n ih =>
    have happ : applyCalls (n + 1) M
        = applyCalls n M ++ (List.range M).map fun m => Call.apply m n := by
      simp [applyCalls, List.range_succ]
    rw [happ]
    by_cases hcn : c < n
    · have hlt : c * M + m < (applyCalls n M).length := by
        rw [length_applyCalls]
        calc c * M + m < c * M + M := by omega
          _ = (c + 1) * M := by rw [Nat.succ_mul]
          _ ≤ n * M := Nat.mul_le_mul_right M hcn
      rw [List.getElem?_append_left hlt]
      exact ih hcn
    · have hceq : c = n := by omega
      subst hceq
      have hle : (applyCalls c M).length ≤ c * M + m := by
        rw [length_applyCalls]; omega
      rw [List.getElem?_append_right hle, length_applyCalls]
      simp [hm]

theorem produce_eq_of_resolved (P : RecoTauProducer) (ev : Event)
    (h : (ev.jetView.enum.all fun ij => !missingRegion P ev ij) = true) :
    produce P ev =
      { log := (assemble P ev).1.log ++
          applyCalls (assemble P ev).1.output.length P.modifiers_.length ++ endEventCalls P,
        put := .ok ((assemble P ev).1.output.map (modifierChain P.modifiers_)) } := by
  have ha : (assemble P ev).2 = none := by rw [assemble_eq]; simp [h]
  unfold produce
  rcases hst : assemble P ev with ⟨st, e⟩
  rw [hst] at ha
  simp only at ha
  subst ha
  simp [modifierLoop_eq, endEventLoop_eq, applyCalls, endEventCalls, List.range_eq_range']

theorem produce_eq_of_missing (P : RecoTauProducer) (ev : Event)
    (h : (ev.jetView.enum.all fun ij => !missingRegion P ev ij) = false) :
    produce P ev =
      { log := (assemble P ev).1.log,
        put := .error (Exception.BadJetRegionRef ev.jetViewId) } := by
  have ha : (assemble P ev).2 = some (Exception.BadJetRegionRef ev.jetViewId) := by
    rw [assemble_eq]; simp [h]
  unfold produce
  rcases hst : assemble P ev with ⟨st, e⟩
  rw [hst] at ha
  simp only at ha
  subst ha
  rfl

theorem mem_assemble_log {P : RecoTauProducer} {ev : Event} {c : Call}
    (h : c ∈ (assemble P ev).1.log) :
    (∃ b, c = Call.builderSetup b) ∨ (∃ m, c = Call.modifierSetup m) ∨
      ∃ b i jet u, c = Call.build b i u ∧ ev.jetView[i]? = some jet ∧
        skipsJet P jet = false := by
  rw [assemble_eq] at h
  simp only [setupCalls, List.mem_append, List.mem_map, List.mem_flatMap] at h
  rcases h with (⟨b, _, rfl⟩ | ⟨m, _, rfl⟩) | ⟨ij, hij, hc⟩
  · exact Or.inl ⟨b, rfl⟩
  · exact Or.inr (Or.inl ⟨m, rfl⟩)
  · obtain ⟨hs, b, u, rfl⟩ := mem_seedCalls hc
    exact Or.inr (Or.inr ⟨b, ij.1, ij.2, u, rfl, mem_processedJets hij, hs⟩)

theorem mem_assemble_output {P : RecoTauProducer} {ev : Event} {tau : PFTau}
    (h : tau ∈ (assemble P ev).1.output) :
    ∃ i jet, ev.jetView[i]? = some jet ∧ skipsJet P jet = false ∧
      tau.jetRef = some (refAt ev i jet) := by
  rw [assemble_eq] at h
  simp only [List.mem_flatMap] at h
  obtain ⟨ij, hij, hc⟩ := h
  obtain ⟨hs, hj⟩ := mem_jetContribution hc
  exact ⟨ij.1, ij.2, mem_processedJets hij, hs, hj⟩

/-! ## Scenario evaluations -/

theorem skipsJet_scenarioJet (P : RecoTauProducer) (h₁ : P.minJetPt_ = 14)
    (h₂ : P.maxJetAbsEta_ = 5 / 2) : skipsJet P scenarioJet = false := by
  simp only [skipsJet, scenarioJet, h₁, h₂]
  norm_num

theorem skipsJet_softJet (P : RecoTauProducer) (h₁ : P.minJetPt_ = 14) :
    skipsJet P softJet = true := by
  simp only [skipsJet, softJet, scenarioJet, h₁]
  norm_num

theorem scenarioEvent_resolved (P : RecoTauProducer) :
    ∀ i jet, scenarioEvent.jetView[i]? = some jet → skipsJet P jet = false →
      (scenarioEvent.jetRegion i).isSome = true := by
  intro i jet _ _
  rfl

theorem flatMap_eq_map_filter {α β : Type} (l : List α) (f : α → List β) (p : α → Bool)
    (g : α → β) (h : ∀ x ∈ l, f x = if p x = true then [g x] else []) :
    l.flatMap f = (l.filter p).map g := by
  induction l with
  | nil => rfl
  | cons x xs ih =>
    have hx := h x (List.mem_cons_self x xs)
    have ih' := ih fun y hy => h y (List.mem_cons_of_mem x hy)
    cases hp : p x with
    | true => simp [List.flatMap_cons, hx, hp, ih']
    | false => simp [List.flatMap_cons, hx, hp, ih']

theorem survivingCandidates_eq_nil_of_reject (P : RecoTauProducer) (ev : Event)
    (jetRef : JetBaseRef) (region : Jet) (sel : PFTau → Bool)
    (hsel : P.outputSelector_ = some sel) (hrej : ∀ tau, sel tau = false) :
    survivingCandidates P ev jetRef region = [] := by
  simp only [survivingCandidates, List.flatMap_eq_nil_iff, List.filter_eq_nil_iff]
  intro builder _ tau _
  simp [passesSelection, hsel, hrej]

theorem scenarioEvent_enum : scenarioEvent.jetView.enum = [(0, scenarioJet)] := rfl

theorem scenario_unique_cands :
    uniqueRegionalCands scenarioJet.daughterPtrVector scenarioJet.daughterPtrVector = [] :=
  (uniqueRegionalCands_eq_nil_iff _ _).2 fun _ => le_refl _

theorem jetContribution_eq_seedContribution (P : RecoTauProducer) (ev : Event) (i_j : Nat)
    (jet : Jet)
    (hrange : ∀ region, ev.jetRegion i_j = some region → P.buildNullTaus_ = true →
      (survivingCandidates P ev (refAt ev i_j jet) region).length % 2 ^ 32 = 0 →
      survivingCandidates P ev (refAt ev i_j jet) region = []) :
    jetContribution P ev i_j jet = seedContribution P ev i_j jet := by
  cases hs : skipsJet P jet with
  | true => simp [jetContribution_of_skip P ev i_j jet hs, seedContribution, hs]
  | false =>
    cases hr : ev.jetRegion i_j with
    | none =>
      simp [jetContribution, processJet_missing P ev i_j jet _ hs hr, seedContribution, hs, hr]
    | some region =>
      rw [jetContribution_of_region P ev i_j jet region hs hr]
      simp only [seedContribution, hs, hr, Bool.false_eq_true, if_false]
      by_cases hreal : survivingCandidates P ev (refAt ev i_j jet) region = []
      · rw [hreal]
        simp
      · have hc : ¬((survivingCandidates P ev (refAt ev i_j jet) region).length % 2 ^ 32 = 0 ∧
            P.buildNullTaus_ = true) := fun hc => hreal (hrange region hr hc.2 hc.1)
        rw [if_neg hc, if_neg fun h => hreal h.1, List.append_nil]

theorem seedCalls_of_region (P : RecoTauProducer) (ev : Event) (i_j : Nat)
    (jet region : Jet) (hs : skipsJet P jet = false) (hr : ev.jetRegion i_j = some region) :
    seedCalls P ev i_j jet = buildCalls P (refAt ev i_j jet) region := by
  simp only [seedCalls, hs, hr, Bool.false_eq_true, if_false]

theorem seedCalls_of_skip (P : RecoTauProducer) (ev : Event) (i_j : Nat) (jet : Jet)
    (hs : skipsJet P jet = true) : seedCalls P ev i_j jet = [] := by
  simp only [seedCalls, hs, if_true]

theorem count_range_map_apply (M c m c' : Nat) :
    ((List.range M).map fun j => Call.apply j c').count (Call.apply m c)
      = if c = c' ∧ m < M then 1 else 0 := by
  induction M with
  | zero => simp
  | succ M ih =>
    rw [List.range_succ, List.map_append, List.count_append, ih]
    by_cases hc : c = c'
    · subst hc
      by_cases hm : m = M
      · subst hm
        simp
      · have hne : Call.apply M c ≠ Call.apply m c := fun h => hm (by injection h with h; exact h.symm)
        simp only [List.map_cons, List.map_nil, List.count_cons_of_ne (Ne.symm hne),
          List.count_nil, true_and]
        by_cases hlt : m < M
        · simp [hlt, Nat.lt_succ_of_lt hlt]
        · have : ¬m < M + 1 := by omega
          simp [hlt, this]
    · have hne : Call.apply M c' ≠ Call.apply m c := fun h => hc (by injection h with _ h; exact h.symm)
      simp [hc, List.count_cons_of_ne (Ne.symm hne)]

theorem count_applyCalls (n M c m : Nat) :
    (applyCalls n M).count (Call.apply m c) = if c < n ∧ m < M then 1 else 0 := by
  induction n with
  | zero => simp [applyCalls]
  | succ n ih =>
    have happ : applyCalls (n + 1) M
        = applyCalls n M ++ (List.range M).map fun m => Call.apply m n := by
      simp [applyCalls, List.range_succ]
    rw [happ, List.count_append, ih, count_range_map_apply]
    by_cases hm : m < M
    · by_cases hcn : c < n
      · have h₁ : c < n + 1 := by omega
        have h₂ : c ≠ n := by omega
        simp [hm, hcn, h₁, h₂]
      · by_cases hceq : c = n
        · subst hceq
          simp [hm]
        · have h₁ : ¬c < n + 1 := by omega
          simp [hm, hcn, hceq, h₁]
    · simp [hm]

theorem count_apply_assemble_log (P : RecoTauProducer) (ev : Event) (c m : Nat) :
    (assemble P ev).1.log.count (Call.apply m c) = 0 := by
  apply List.count_eq_zero_of_not_mem
  intro hmem
  rcases mem_assemble_log hmem with ⟨_, h⟩ | ⟨_, h⟩ | ⟨_, _, _, _, h, _⟩ <;>
    exact Call.noConfusion h

theorem count_apply_endEventCalls (P : RecoTauProducer) (c m : Nat) :
    (endEventCalls P).count (Call.apply m c) = 0 := by
  apply List.count_eq_zero_of_not_mem
  intro hmem
  simp only [endEventCalls, List.mem_map] at hmem
  obtain ⟨_, _, h⟩ := hmem
  exact Call.noConfusion h

/-- C5. Region differencing: for every pair of daughter lists, in any order and with
repetitions, the unique regional extras are the sorted multiset difference `R \ S`: the
result is sorted ascending, every reference occurs `max (r - s) 0` times, and the result is
the sorted list of the multiset difference. Hence `diff(X, X)` and `diff(X, ∅)` are empty,
`diff(∅, Y)` is `Y` sorted, and a region contained in the seed gives the empty sequence. -/
theorem region_differencing_sorted_multiset_difference (S R : List CandidatePtr) :
    (uniqueRegionalCands S R).Sorted (· ≤ ·) ∧
    (∀ a, ((uniqueRegionalCands S R).count a : ℤ) = max ((R.count a : ℤ) - S.count a) 0) ∧
    uniqueRegionalCands S R = sortedMultisetDifference R S ∧
    uniqueRegionalCands S S = [] ∧
    uniqueRegionalCands S [] = [] ∧
    uniqueRegionalCands [] R = std_sort R ∧
    (uniqueRegionalCands S R = [] ↔ ∀ a, R.count a ≤ S.count a) ∧
    (R.Nodup → R ⊆ S → uniqueRegionalCands S R = []) := by
  refine ⟨sorted_uniqueRegionalCands S R, ?_, uniqueRegionalCands_eq_sortedMultisetDifference S R,
    ?_, ?_, ?_, uniqueRegionalCands_eq_nil_iff S R, ?_⟩
  · intro a
    rw [count_uniqueRegionalCands]
    rcases le_total (R.count a) (S.count a) with h | h
    · rw [Nat.sub_eq_zero_of_le h, max_eq_right (by omega)]
      rfl
    · rw [max_eq_left (by omega)]
      omega
  · exact (uniqueRegionalCands_eq_nil_iff S S).2 fun _ => le_refl _
  · exact (uniqueRegionalCands_eq_nil_iff S []).2 fun a => by simp
  · apply eq_of_sorted_of_count (sorted_uniqueRegionalCands [] R) (sorted_std_sort R)
    intro a
    rw [count_uniqueRegionalCands, count_std_sort]
    simp
  · intro hnd hsub
    apply (uniqueRegionalCands_eq_nil_iff S R).2
    intro a
    by_cases ha : a ∈ R
    · rw [List.count_eq_one_of_mem hnd ha]
      exact List.count_pos_iff.2 (hsub ha)
    · rw [List.count_eq_zero_of_not_mem ha]
      exact Nat.zero_le _

/-- C5, witness: seed daughters `[3, 1, 2]`, region daughters `[5, 1, 4, 1, 3]`: the extras
are `[1, 4, 5]`, the second occurrence of 1 being kept, and they are sorted. -/
theorem region_differencing_witness :
    uniqueRegionalCands [3, 1, 2] [5, 1, 4, 1, 3] = ([1, 4, 5] : List CandidatePtr) ∧
    (uniqueRegionalCands [3, 1, 2] [5, 1, 4, 1, 3] : List CandidatePtr).Sorted (· ≤ ·) := by
  refine ⟨?_, (region_differencing_sorted_multiset_difference [3, 1, 2] [5, 1, 4, 1, 3]).1⟩
  simp [uniqueRegionalCands, std_sort, set_difference, List.insertionSort,
    List.orderedInsert]

/-- C9, as the code has it. The momentum cut rejects momenta above the nominal minimum
within epsilon: every seed with `pt < minJetPt + 1e-5`, so every seed with
`minJetPt - 1e-5 < pt < minJetPt` too, is skipped. The eta cut rejects etas below the
nominal maximum within epsilon: every seed with `maxJetAbsEta - 1e-5 < |eta|` is skipped.
A seed is not skipped exactly when `pt ≥ minJetPt + 1e-5` and
`|eta| ≤ maxJetAbsEta - 1e-5`. -/
theorem prefilter_epsilon_convention (P : RecoTauProducer) (jet : Jet) :
    (jet.pt < P.minJetPt_ + 1 / 100000 → skipsJet P jet = true) ∧
    (P.minJetPt_ - 1 / 100000 < jet.pt ∧ jet.pt < P.minJetPt_ → skipsJet P jet = true) ∧
    (P.maxJetAbsEta_ - 1 / 100000 < |jet.eta| → skipsJet P jet = true) ∧
    (skipsJet P jet = false ↔
      P.minJetPt_ + 1 / 100000 ≤ jet.pt ∧ |jet.eta| ≤ P.maxJetAbsEta_ - 1 / 100000) := by
  refine ⟨?_, ?_, ?_, ?_⟩
  · intro h
    exact (skipsJet_eq_true_iff P jet).2 (Or.inl (by linarith))
  · intro h
    exact (skipsJet_eq_true_iff P jet).2 (Or.inl (by linarith [h.2]))
  · intro h
    exact (skipsJet_eq_true_iff P jet).2 (Or.inr (by linarith))
  · rw [← Bool.not_eq_true, skipsJet_eq_true_iff, not_or, not_lt, not_lt]
    constructor
    · rintro ⟨h₁, h₂⟩
      exact ⟨by linarith, by linarith⟩
    · rintro ⟨h₁, h₂⟩
      exact ⟨by linarith, by linarith⟩

/-- C9, as stated, fails: a seed with `eta = 0` (maximum 2.5) and `pt = 14 - 5e-6`, which
lies strictly between `minJetPt - 1e-5` and `minJetPt = 14`, is skipped: the jet loop body
leaves the collection and the log as they were, and no builder runs. -/
theorem prefilter_rejects_just_below_minimum :
    scenarioProducer.minJetPt_ - 1 / 100000 < nearThresholdJet.pt ∧
    nearThresholdJet.pt < scenarioProducer.minJetPt_ ∧
    |nearThresholdJet.eta| < scenarioProducer.maxJetAbsEta_ - 1 ∧
    skipsJet scenarioProducer nearThresholdJet = true ∧
    ∀ st, processJet scenarioProducer scenarioEvent 0 nearThresholdJet st = .ok st := by
  have hs : skipsJet scenarioProducer nearThresholdJet = true := by
    simp only [skipsJet, scenarioProducer, nearThresholdJet, scenarioJet]
    norm_num
  refine ⟨?_, ?_, ?_, hs, fun st => processJet_skip _ _ _ _ st hs⟩
  · simp only [scenarioProducer, nearThresholdJet, scenarioJet]; norm_num
  · simp only [scenarioProducer, nearThresholdJet, scenarioJet]; norm_num
  · simp only [scenarioProducer, nearThresholdJet, scenarioJet]; norm_num

/-- C9, witness of the convention: the scenario seed (`pt = 20`, `eta = 1.0`) is not
skipped under the thresholds 14 and 2.5. -/
theorem prefilter_epsilon_convention_witness :
    skipsJet scenarioProducer scenarioJet = false :=
  (prefilter_epsilon_convention scenarioProducer scenarioJet).2.2.2.2
    ⟨by simp only [scenarioProducer, scenarioJet]; norm_num,
     by simp only [scenarioProducer, scenarioJet]; norm_num⟩

/-- C2. Pre-filter: a seed of the event that fails the momentum or the eta cut contributes
no candidate: the loop body leaves collection and log unchanged, so no builder runs and no
null tau is made; its contribution is empty; no candidate of the assembled collection
refers back to it; and the log of the event has no `build` call for it. The null-tau flag
is arbitrary. -/
theorem prefilter_skipped_seed_contributes_nothing (P : RecoTauProducer) (ev : Event)
    (i_j : Nat) (jet : Jet) (hi : ev.jetView[i_j]? = some jet)
    (hfail : jet.pt - P.minJetPt_ < 1 / 100000 ∨
      |jet.eta| - P.maxJetAbsEta_ > -(1 / 100000)) :
    (∀ st, processJet P ev i_j jet st = .ok st) ∧
    seedContribution P ev i_j jet = [] ∧
    (∀ tau ∈ (assemble P ev).1.output, tau.jetRef ≠ some (refAt ev i_j jet)) ∧
    (∀ b u, Call.build b i_j u ∉ (produce P ev).log) := by
  have hs : skipsJet P jet = true := (skipsJet_eq_true_iff P jet).2 hfail
  refine ⟨fun st => processJet_skip P ev i_j jet st hs, by simp [seedContribution, hs], ?_, ?_⟩
  · intro tau htau heq
    obtain ⟨i', jet', _, hs', hj⟩ := mem_assemble_output htau
    rw [hj] at heq
    have hjet : jet' = jet := by
      have := congrArg JetBaseRef.obj (Option.some.inj heq)
      simpa [refAt] using this
    rw [hjet, hs] at hs'
    exact Bool.noConfusion hs'
  · intro b u hmem
    have hlog : Call.build b i_j u ∈ (assemble P ev).1.log := by
      cases hall : (ev.jetView.enum.all fun ij => !missingRegion P ev ij) with
      | false =>
        rw [produce_eq_of_missing P ev hall] at hmem
        exact hmem
      | true =>
        rw [produce_eq_of_resolved P ev hall] at hmem
        simp only [List.mem_append, applyCalls, endEventCalls, List.mem_flatMap,
          List.mem_map] at hmem
        rcases hmem with (h | ⟨_, _, _, _, h⟩) | ⟨_, _, h⟩
        · exact h
        · exact Call.noConfusion h
        · exact Call.noConfusion h
    rcases mem_assemble_log hlog with ⟨_, h⟩ | ⟨_, h⟩ | ⟨b', i', jet', u', h, hi', hs'⟩
    · exact Call.noConfusion h
    · exact Call.noConfusion h
    · injection h with _ hii _
      subst hii
      rw [hi] at hi'
      have hjet : jet = jet' := Option.some.inj hi'
      rw [← hjet, hs] at hs'
      exact Bool.noConfusion hs'

/-- C2, witness: the seed with `pt = 10` under `minJetPt = 14`, with null taus wanted, is
skipped; the event puts the empty collection and logs the two setup calls only. -/
theorem prefilter_skipped_seed_witness :
    (∀ st, processJet nullTauProducer softEvent 0 softJet st = .ok st) ∧
    seedContribution nullTauProducer softEvent 0 softJet = [] ∧
    (∀ tau ∈ (assemble nullTauProducer softEvent).1.output,
      tau.jetRef ≠ some (refAt softEvent 0 softJet)) ∧
    (∀ b u, Call.build b 0 u ∉ (produce nullTauProducer softEvent).log) :=
  prefilter_skipped_seed_contributes_nothing nullTauProducer softEvent 0 softJet rfl
    (Or.inl (by simp only [softJet, scenarioJet, nullTauProducer, scenarioProducer]; norm_num))

/-- C3. Null fallback: a seed that passes the pre-filter, whose region resolves, and for
which every candidate a builder returns is rejected by the configured selection (so also
when every builder returns nothing), gets, with null taus wanted, exactly one candidate
appended: the null tau, with the four-momentum of the seed, empty sub-structure and the
seed as back-reference. Every builder has been called once. -/
theorem null_fallback_single_null_candidate (P : RecoTauProducer) (ev : Event) (i_j : Nat)
    (jet region : Jet) (st : ProdState)
    (hpass : ¬(jet.pt - P.minJetPt_ < 1 / 100000 ∨
      |jet.eta| - P.maxJetAbsEta_ > -(1 / 100000)))
    (hreg : ev.jetRegion i_j = some region)
    (hzero : ∀ builder ∈ P.builders_,
      ∀ tau ∈ builder (refAt ev i_j jet) (ev.chargedHadronAssoc i_j) (ev.piZeroAssoc i_j)
          (uniqueRegionalCands jet.daughterPtrVector region.daughterPtrVector),
        ∃ sel, P.outputSelector_ = some sel ∧ sel (tau.setjetRef (refAt ev i_j jet)) = false)
    (hnull : P.buildNullTaus_ = true) :
    processJet P ev i_j jet st =
      .ok { output := st.output ++ [nullTau (refAt ev i_j jet)],
            log := st.log ++ buildCalls P (refAt ev i_j jet) region } ∧
    seedContribution P ev i_j jet = [nullTau (refAt ev i_j jet)] ∧
    (nullTau (refAt ev i_j jet)).p4 = jet.p4 ∧
    (nullTau (refAt ev i_j jet)).hasNoContent ∧
    (nullTau (refAt ev i_j jet)).jetRef = some (refAt ev i_j jet) := by
  have hs : skipsJet P jet = false := by
    rw [← Bool.not_eq_true, skipsJet_eq_true_iff]
    exact hpass
  have hsurv : survivingCandidates P ev (refAt ev i_j jet) region = [] := by
    simp only [survivingCandidates, List.flatMap_eq_nil_iff, List.filter_eq_nil_iff,
      List.mem_map]
    rintro builder hb tau ⟨t, ht, rfl⟩
    obtain ⟨sel, hsel, hrej⟩ := hzero builder hb t ht
    simp [passesSelection, hsel, hrej]
  refine ⟨?_, ?_, rfl, ⟨rfl, rfl, rfl⟩, rfl⟩
  · rw [processJet_build P ev i_j jet region st hs hreg, addNullTau_buildTaus]
    simp [hsurv, hnull]
  · simp [seedContribution, hs, hreg, hsurv, hnull]

/-- C3, witness: the scenario seed with a builder that returns nothing and null taus wanted:
the one candidate appended is the null tau of the seed. -/
theorem null_fallback_witness :
    processJet emptyBuilderProducer scenarioEvent 0 scenarioJet { output := [], log := [] } =
      .ok { output := [nullTau (refAt scenarioEvent 0 scenarioJet)],
            log := [Call.build 0 0 []] } ∧
    (nullTau (refAt scenarioEvent 0 scenarioJet)).p4 = scenarioJet.p4 := by
  have h := null_fallback_single_null_candidate emptyBuilderProducer scenarioEvent 0
    scenarioJet scenarioJet { output := [], log := [] }
    (by simp only [scenarioJet, emptyBuilderProducer, scenarioProducer]; norm_num)
    rfl
    (by
      intro builder hb tau htau
      simp only [emptyBuilderProducer, scenarioProducer, List.mem_singleton] at hb
      subst hb
      simp [emptyBuilder] at htau)
    rfl
  have hu : uniqueRegionalCands scenarioJet.daughterPtrVector scenarioJet.daughterPtrVector
      = [] := (uniqueRegionalCands_eq_nil_iff _ _).2 fun _ => le_refl _
  refine ⟨?_, h.2.2.1⟩
  rw [h.1]
  simp [buildCalls, refAt, hu, emptyBuilderProducer, scenarioProducer, List.range_succ]

/-- C6. Modifier application: when the jet loop ends without fault with `n` candidates and
there are `M` modifiers, the log of the event is the log of the setup calls and the jet
loop, then `n * M` `apply` calls, the one at place `c * M + m` being modifier `m` on
candidate `c`, then one `endEvent` call per modifier in list order; the log of the setup
calls and the jet loop holds setup and `build` calls only; the collection put is the
assembled one with the modifier chain applied to each element, of the same length and in
the same order; and the log of the event holds `apply` of modifier `m` on candidate `c`
exactly once when `c < n` and `m < M`, and not at all otherwise. -/
theorem modifiers_applied_once_per_candidate_in_order (P : RecoTauProducer) (ev : Event)
    (hreg : ∀ i jet, ev.jetView[i]? = some jet → skipsJet P jet = false →
      (ev.jetRegion i).isSome = true) :
    (produce P ev).put = .ok ((assemble P ev).1.output.map (modifierChain P.modifiers_)) ∧
    ((assemble P ev).1.output.map (modifierChain P.modifiers_)).length
      = (assemble P ev).1.output.length ∧
    (produce P ev).log = (assemble P ev).1.log ++
      applyCalls (assemble P ev).1.output.length P.modifiers_.length ++ endEventCalls P ∧
    (applyCalls (assemble P ev).1.output.length P.modifiers_.length).length
      = (assemble P ev).1.output.length * P.modifiers_.length ∧
    (∀ c m, c < (assemble P ev).1.output.length → m < P.modifiers_.length →
      (applyCalls (assemble P ev).1.output.length P.modifiers_.length)[c * P.modifiers_.length
        + m]? = some (Call.apply m c)) ∧
    (∀ c ∈ (assemble P ev).1.log, (∃ b, c = Call.builderSetup b) ∨
      (∃ m, c = Call.modifierSetup m) ∨ ∃ b i u, c = Call.build b i u) ∧
    (endEventCalls P).length = P.modifiers_.length ∧
    (∀ m, m < P.modifiers_.length → (endEventCalls P)[m]? = some (Call.endEvent m)) ∧
    (∀ c m, (produce P ev).log.count (Call.apply m c) =
      if c < (assemble P ev).1.output.length ∧ m < P.modifiers_.length then 1 else 0) := by
  have hall := (no_missing_iff P ev).2 hreg
  have hp := produce_eq_of_resolved P ev hall
  refine ⟨by rw [hp], List.length_map _ _, by rw [hp], length_applyCalls _ _,
    fun c m hc hm => getElem?_applyCalls _ _ c m hc hm, ?_, by simp [endEventCalls], ?_, ?_⟩
  rotate_right
  · intro c m
    rw [hp]
    simp only [List.count_append, count_apply_assemble_log, count_apply_endEventCalls,
      count_applyCalls, Nat.zero_add, Nat.add_zero]
  · intro c hc
    rcases mem_assemble_log hc with h | h | ⟨b, i, _, u, h, _⟩
    · exact Or.inl h
    · exact Or.inr (Or.inl h)
    · exact Or.inr (Or.inr ⟨b, i, u, h⟩)
  · intro m hm
    simp [endEventCalls, List.getElem?_range hm, hm]

/-- C6, witness: the scenario seed, one builder returning two candidates and two marking
modifiers: four `apply` calls, candidate by candidate, after the `build` call and before the
two `endEvent` calls; both candidates carry the marks 1 then 2. -/
theorem modifier_application_scenario_witness :
    (produce twoModifierProducer scenarioEvent).log =
      [Call.builderSetup 0, Call.modifierSetup 0, Call.modifierSetup 1, Call.build 0 0 [],
       Call.apply 0 0, Call.apply 1 0, Call.apply 0 1, Call.apply 1 1,
       Call.endEvent 0, Call.endEvent 1] ∧
    (produce twoModifierProducer scenarioEvent).put =
      .ok [{ tauA.setjetRef (refAt scenarioEvent 0 scenarioJet) with aux := [1, 2] },
           { tauB.setjetRef (refAt scenarioEvent 0 scenarioJet) with aux := [1, 2] }] := by
  have h := modifiers_applied_once_per_candidate_in_order twoModifierProducer scenarioEvent
    (scenarioEvent_resolved twoModifierProducer)
  have hs := skipsJet_scenarioJet twoModifierProducer rfl rfl
  have hproc := processedJets_of_resolved twoModifierProducer scenarioEvent
    (scenarioEvent_resolved twoModifierProducer)
  have hout : (assemble twoModifierProducer scenarioEvent).1.output =
      [tauA.setjetRef (refAt scenarioEvent 0 scenarioJet),
       tauB.setjetRef (refAt scenarioEvent 0 scenarioJet)] := by
    rw [assemble_eq, hproc, scenarioEvent_enum]
    simp only [List.flatMap_cons, List.flatMap_nil, List.append_nil]
    rw [jetContribution_of_region _ _ 0 scenarioJet scenarioJet hs rfl]
    simp [survivingCandidates, twoModifierProducer, scenarioProducer, twoTauBuilder,
      passesSelection]
  have hlog : (assemble twoModifierProducer scenarioEvent).1.log =
      [Call.builderSetup 0, Call.modifierSetup 0, Call.modifierSetup 1,
       Call.build 0 0 []] := by
    rw [assemble_eq, hproc, scenarioEvent_enum]
    simp only [List.flatMap_cons, List.flatMap_nil, List.append_nil]
    rw [seedCalls_of_region _ _ 0 scenarioJet scenarioJet hs rfl]
    simp [buildCalls, setupCalls, twoModifierProducer, scenarioProducer, refAt,
      List.range_succ, scenario_unique_cands]
  refine ⟨?_, ?_⟩
  · rw [h.2.2.1, hlog, hout]
    simp [applyCalls, endEventCalls, twoModifierProducer, scenarioProducer, List.range_succ]
  · rw [h.1, hout]
    simp [modifierChain, twoModifierProducer, scenarioProducer, markModifier, tauA, tauB,
      PFTau.setjetRef, PFTau.ctor]

/-- C7. Missing-region error: with plugins that do not fail, `produce` ends with the
`BadJetRegionRef` fault exactly when some seed of the event passes the pre-filter and has no
resolvable region, and puts a collection exactly when there is no such seed; when it ends
with a fault, the fault is `BadJetRegionRef`, nothing is put, and the log of the event has
neither an `apply` nor an `endEvent` call. A seed that is skipped never causes the fault. -/
theorem missing_region_fault_iff_unresolved_unskipped_seed (P : RecoTauProducer)
    (ev : Event) :
    ((produce P ev).put = .error (Exception.BadJetRegionRef ev.jetViewId) ↔
      ∃ i jet, ev.jetView[i]? = some jet ∧ skipsJet P jet = false ∧ ev.jetRegion i = none) ∧
    ((∃ out, (produce P ev).put = .ok out) ↔
      ¬∃ i jet, ev.jetView[i]? = some jet ∧ skipsJet P jet = false ∧ ev.jetRegion i = none) ∧
    (∀ e, (produce P ev).put = .error e →
      e = Exception.BadJetRegionRef ev.jetViewId ∧
      ∀ c ∈ (produce P ev).log, (∀ m p, c ≠ Call.apply m p) ∧ ∀ m, c ≠ Call.endEvent m) := by
  cases hall : (ev.jetView.enum.all fun ij => !missingRegion P ev ij) with
  | false =>
    have hp := produce_eq_of_missing P ev hall
    have hex := (some_missing_iff P ev).1 hall
    refine ⟨⟨fun _ => hex, fun _ => by rw [hp]⟩, ⟨?_, fun h => absurd hex h⟩, ?_⟩
    · rintro ⟨out, hout⟩
      rw [hp] at hout
      exact Except.noConfusion hout
    · intro e he
      rw [hp] at he
      refine ⟨(Except.error.inj he).symm, ?_⟩
      intro c hc
      rw [hp] at hc
      rcases mem_assemble_log hc with ⟨_, h⟩ | ⟨_, h⟩ | ⟨_, _, _, _, h, _⟩ <;>
        exact ⟨fun m p h' => by rw [h] at h'; exact Call.noConfusion h',
          fun m h' => by rw [h] at h'; exact Call.noConfusion h'⟩
  | true =>
    have hp := produce_eq_of_resolved P ev hall
    have hnex : ¬∃ i jet, ev.jetView[i]? = some jet ∧ skipsJet P jet = false ∧
        ev.jetRegion i = none := by
      intro hex
      have := (some_missing_iff P ev).2 hex
      rw [hall] at this
      exact Bool.noConfusion this
    refine ⟨⟨?_, fun h => absurd h hnex⟩, ⟨fun _ => hnex, fun _ => ⟨_, by rw [hp]⟩⟩, ?_⟩
    · intro h
      rw [hp] at h
      exact Except.noConfusion h
    · intro e he
      rw [hp] at he
      exact Except.noConfusion he

/-- C7, witness: the soft seed and then the scenario seed, no region resolving: the soft
seed is skipped without fault, the scenario seed raises `BadJetRegionRef`, nothing is put,
and the log holds the setup calls only. -/
theorem missing_region_fault_witness :
    (produce twoModifierProducer unresolvedEvent).put
      = .error (Exception.BadJetRegionRef 7) ∧
    (produce twoModifierProducer unresolvedEvent).log =
      [Call.builderSetup 0, Call.modifierSetup 0, Call.modifierSetup 1] := by
  have hsoft := skipsJet_softJet twoModifierProducer rfl
  have hscen := skipsJet_scenarioJet twoModifierProducer rfl rfl
  have hex : ∃ i jet, unresolvedEvent.jetView[i]? = some jet ∧
      skipsJet twoModifierProducer jet = false ∧ unresolvedEvent.jetRegion i = none :=
    ⟨1, scenarioJet, rfl, hscen, rfl⟩
  refine ⟨(missing_region_fault_iff_unresolved_unskipped_seed twoModifierProducer
    unresolvedEvent).1.2 hex, ?_⟩
  have hall := (some_missing_iff twoModifierProducer unresolvedEvent).2 hex
  rw [produce_eq_of_missing twoModifierProducer unresolvedEvent hall, assemble_eq]
  have hproc : processedJets twoModifierProducer unresolvedEvent 0 unresolvedEvent.jetView
      = [(0, softJet)] := by
    simp [processedJets, unresolvedEvent, List.enumFrom_cons, List.takeWhile_cons,
      missingRegion, hsoft, hscen]
  rw [hproc]
  simp only [List.flatMap_cons, List.flatMap_nil, List.append_nil]
  rw [seedCalls_of_skip _ _ 0 softJet hsoft]
  simp [setupCalls, twoModifierProducer, scenarioProducer, List.range_succ]

/-- C8, on the code: in the scenario of a seed with `pt = 20`, `eta = 1.0`, a builder that
returns nothing and null taus wanted, the collection put is the null tau alone, and its
first constructor argument is the integer 0, the value of
`std::numeric_limits<int>::quiet_NaN()`: the same value as the charge of the neutral real
candidate `tauB`, and no NaN. -/
theorem null_tau_first_argument_is_integer_zero :
    (produce emptyBuilderProducer scenarioEvent).put
      = .ok [nullTau (refAt scenarioEvent 0 scenarioJet)] ∧
    (nullTau (refAt scenarioEvent 0 scenarioJet)).charge = 0 ∧
    (nullTau (refAt scenarioEvent 0 scenarioJet)).charge = tauB.charge := by
  have hres := scenarioEvent_resolved emptyBuilderProducer
  have hs := skipsJet_scenarioJet emptyBuilderProducer rfl rfl
  refine ⟨?_, rfl, rfl⟩
  rw [produce_eq_of_resolved _ _ ((no_missing_iff _ _).2 hres), assemble_eq,
    processedJets_of_resolved _ _ hres, scenarioEvent_enum]
  simp only [List.flatMap_cons, List.flatMap_nil, List.append_nil]
  rw [jetContribution_of_no_survivor _ _ 0 scenarioJet scenarioJet hs rfl
    (by simp [survivingCandidates, emptyBuilderProducer, scenarioProducer, emptyBuilder]) rfl]
  simp [emptyBuilderProducer, scenarioProducer, modifierChain]

/-- C10. The null tau is not tested against the selection. With a selection configured and
null taus wanted: a seed that is not skipped, has a region and has no surviving candidate
gets exactly the null tau appended, also when the selection rejects that null tau; and when
the selection rejects every candidate and every seed that is not skipped has a region, the
collection before the modifiers run is one null tau per seed that is not skipped, in seed
order, every one of them rejected by the selection. -/
theorem null_candidate_bypasses_selection (P : RecoTauProducer) (ev : Event)
    (sel : PFTau → Bool) (hsel : P.outputSelector_ = some sel)
    (hnull : P.buildNullTaus_ = true) :
    (∀ i_j jet region st, skipsJet P jet = false → ev.jetRegion i_j = some region →
      survivingCandidates P ev (refAt ev i_j jet) region = [] →
      sel (nullTau (refAt ev i_j jet)) = false →
      processJet P ev i_j jet st =
        .ok { output := st.output ++ [nullTau (refAt ev i_j jet)],
              log := st.log ++ buildCalls P (refAt ev i_j jet) region }) ∧
    ((∀ tau, sel tau = false) →
      (∀ i jet, ev.jetView[i]? = some jet → skipsJet P jet = false →
        (ev.jetRegion i).isSome = true) →
      (assemble P ev).2 = none ∧
      (assemble P ev).1.output =
        (ev.jetView.enum.filter fun ij => !skipsJet P ij.2).map
          (fun ij => nullTau (refAt ev ij.1 ij.2)) ∧
      ∀ tau ∈ (assemble P ev).1.output, sel tau = false) := by
  refine ⟨?_, ?_⟩
  · intro i_j jet region st hs hr hsurv _
    rw [processJet_build P ev i_j jet region st hs hr, addNullTau_buildTaus]
    simp [hsurv, hnull]
  · intro hrej hreg
    refine ⟨?_, ?_, fun tau _ => hrej tau⟩
    · rw [assemble_eq]
      simp [(no_missing_iff P ev).2 hreg]
    · rw [assemble_eq, processedJets_of_resolved P ev hreg]
      apply flatMap_eq_map_filter
      intro ij hij
      have hi := List.mem_enum_iff_getElem?.1 hij
      cases hs : skipsJet P ij.2 with
      | true => simp [jetContribution_of_skip P ev ij.1 ij.2 hs]
      | false =>
        have hsome := hreg ij.1 ij.2 hi hs
        cases hr : ev.jetRegion ij.1 with
        | none => simp [hr] at hsome
        | some region =>
          rw [jetContribution_of_no_survivor P ev ij.1 ij.2 region hs hr
            (survivingCandidates_eq_nil_of_reject P ev _ region sel hsel hrej) hnull]
          simp

/-- C10, witness: the scenario seed, a builder returning two candidates, a selection that
rejects everything, null taus wanted: the collection is the null tau of the seed alone,
although the selection rejects it. -/
theorem null_candidate_bypasses_selection_witness :
    (assemble rejectAllProducer scenarioEvent).1.output
      = [nullTau (refAt scenarioEvent 0 scenarioJet)] ∧
    (∀ sel, rejectAllProducer.outputSelector_ = some sel →
      sel (nullTau (refAt scenarioEvent 0 scenarioJet)) = false) := by
  have h := null_candidate_bypasses_selection rejectAllProducer scenarioEvent (fun _ => false)
    rfl rfl
  have hs := skipsJet_scenarioJet rejectAllProducer rfl rfl
  refine ⟨?_, ?_⟩
  · rw [(h.2 (fun _ => rfl) (scenarioEvent_resolved rejectAllProducer)).2.1,
      scenarioEvent_enum]
    simp [hs]
  · intro sel hsel
    simp only [rejectAllProducer, Option.some.injEq] at hsel
    rw [← hsel]

end RecoTau
